import Mathlib

/-! Shallow embedding of the brontes trace-classification core
(`crates/brontes-classifier/src/classifier.rs`) and proofs about the
specification's claims on it.

Machine integers (`U256`, `u64`) are modelled as `Nat` with explicit
`2 ^ 256` / `2 ^ 64` bounds where the code converts or can overflow.
Fallible Rust code (`unwrap`, slice indexing, `Vec::remove`) is modelled
with the `RustRes` result type, whose `panic` constructor propagates
through the monadic plumbing exactly as a Rust panic unwinds. -/

namespace Brontes

/-- Result of running Rust code that may panic (`unwrap`, out-of-bounds
indexing, `Vec::remove` past the end). `panic` aborts the enclosing
computation, mirroring an unwinding Rust panic. -/
inductive RustRes (α : Type) where
  | panic : RustRes α
  | ok : α → RustRes α
deriving DecidableEq

def RustRes.bind : RustRes α → (α → RustRes β) → RustRes β
  | .panic, _ => .panic
  | .ok a, f => f a

instance : Monad RustRes where
  pure := RustRes.ok
  bind := RustRes.bind

@[simp] theorem RustRes.bind_ok (a : α) (f : α → RustRes β) :
    RustRes.bind (.ok a) f = f a := rfl

@[simp] theorem RustRes.bind_panic (f : α → RustRes β) :
    RustRes.bind .panic f = .panic := rfl

@[simp] theorem RustRes.monad_bind_ok (a : α) (f : α → RustRes β) :
    (RustRes.ok a) >>= f = f a := rfl

@[simp] theorem RustRes.monad_bind_panic (f : α → RustRes β) :
    (RustRes.panic : RustRes α) >>= f = .panic := rfl

@[simp] theorem RustRes.pure_eq (a : α) : (pure a : RustRes α) = .ok a := rfl

/-- One byte of calldata / log data. Kept as `Nat`: the code only moves
bytes around and interprets big-endian slices, never wraps byte arithmetic. -/
abbrev Byte := Nat

abbrev Bytes := List Byte

/-- A 20-byte Ethereum address, as its byte list. -/
abbrev Address := List Byte

/-- A 32-byte word (log topic), as its byte list. -/
abbrev H256 := List Byte

/-- Big-endian interpretation of a byte slice, the value that ruint's
`U256::try_from_be_slice` produces when it fits in 256 bits. -/
def beNat (bs : Bytes) : Nat := bs.foldl (fun acc b => acc * 256 + b) 0

/-- Big-endian byte decomposition of a value at a given width. -/
def natBeBytes : Nat → Nat → Bytes
  | 0, _ => []
  | w + 1, v => natBeBytes w (v / 256) ++ [v % 256]

/-- The 32 bytes of `TRANSFER_TOPIC`, the keccak of the canonical transfer
event signature, exactly as the constant at the top of `classifier.rs`. -/
def TRANSFER_TOPIC : H256 :=
  natBeBytes 32 0xddf252ad1be2c89b69c2b068fc378daa952ba7f163c4a11628f55a4df523b3ef

/-- An emitted log event (`reth_rpc_types::Log`): emitting address, ordered
topic list, raw data bytes. -/
structure RLog where
  address : Address
  topics : List H256
  data : Bytes
deriving DecidableEq

/-- A raw parity-trace action (`reth_rpc_types::trace::parity::Action`).
Only the `Call` variant is inspected by the code under verification
(`get_coinbase_transfer`); every other variant is collapsed into `other`. -/
inductive PAction where
  | call (frm : Address) (dst : Address) (value : Nat) (input : Bytes)
  | other
deriving DecidableEq

/-- Modelled from the spec: a Trace Record (`TransactionTraceWithLogs` of
`brontes-types::structured_trace`, which is not part of the reviewed
sources). Spec section 3 lists its attributes: caller address
(`get_from_addr`), callee address (`get_to_address`), raw call input bytes
(`get_calldata`), raw return bytes (`get_return_calldata`), the ordered
list of emitted logs, and the trace-address path; plus the raw parity
action that `build_tree` scans for coinbase transfers. -/
structure TransactionTraceWithLogs where
  frm : Address
  dst : Address
  input : Bytes
  output : Bytes
  logs : List RLog
  traceAddress : List Nat
  action : PAction
deriving DecidableEq

/-- Modelled from the spec: one transaction's ordered trace-record list plus
its gas scalars (`TxTrace` of `brontes-types`, not part of the reviewed
sources; spec section 6 lists the fields the core consumes). -/
structure TxTrace where
  trace : List TransactionTraceWithLogs
  txHash : Nat
  gasUsed : Nat
  effectivePrice : Nat
deriving DecidableEq

/-- Modelled from the spec: the block header fields the core reads
(spec section 6): beneficiary address and optional base fee per unit gas. -/
structure Header where
  beneficiary : Address
  baseFeePerGas : Option Nat
deriving DecidableEq

/-- Normalized swap action, fields as constructed in `classifier.rs`. -/
structure NormalizedSwap where
  index : Nat
  frm : Address
  pool : Address
  tokenIn : Address
  tokenOut : Address
  amountIn : Nat
  amountOut : Nat
deriving DecidableEq

/-- Normalized transfer action, fields as constructed in `classifier.rs`. -/
structure NormalizedTransfer where
  index : Nat
  dst : Address
  frm : Address
  token : Address
  amount : Nat
deriving DecidableEq

/-- Normalized mint action, fields as constructed in `classifier.rs`. -/
structure NormalizedMint where
  index : Nat
  frm : Address
  dst : Address
  recipient : Address
  token : List Address
  amount : List Nat
deriving DecidableEq

/-- Normalized burn action, fields as constructed in `classifier.rs`. -/
structure NormalizedBurn where
  index : Nat
  frm : Address
  dst : Address
  recipient : Address
  token : List Address
  amount : List Nat
deriving DecidableEq

/-- The `Actions` tagged union (spec section 3): Swap, Mint, Burn, Transfer,
or Unclassified carrying the raw trace record and the residual logs kept by
`classify_node`. -/
inductive Actions where
  | swap (s : NormalizedSwap)
  | mint (m : NormalizedMint)
  | burn (b : NormalizedBurn)
  | transfer (t : NormalizedTransfer)
  | unclassified (trace : TransactionTraceWithLogs) (logs : List RLog)
deriving DecidableEq

def Actions.isUnclassified : Actions → Bool
  | .unclassified _ _ => true
  | _ => false

def Actions.isSwap : Actions → Bool
  | .swap _ => true
  | _ => false

def Actions.isMint : Actions → Bool
  | .mint _ => true
  | _ => false

/-- Modelled from the spec: `Actions::get_logs` (brontes-types, not part of
the reviewed sources). The only variant that carries raw logs is
`Unclassified` (spec section 4.1.1 step 3: it keeps the residual logs);
the dynamic-inference pass then "collects every Transfer event anywhere
within the node's subtree" (spec section 4.2) by decoding those logs. -/
def Actions.getLogs : Actions → List RLog
  | .unclassified _ logs => logs
  | _ => []

/-- `decode_transfer` (classifier.rs lines 321-330): checks `topics[0]`
against `TRANSFER_TOPIC`, reads `from`/`to` as the FIRST 20 bytes of
`topics[1]` / `topics[2]` (`Address::from_slice(&log.topics[1][..20])`),
and the amount via `U256::try_from_be_slice(&log.data[..]).unwrap()`,
which panics when the big-endian value does not fit in 256 bits.
Indexing `topics[1]` / `topics[2]` panics when the topics are missing;
`from_slice` needs 20 bytes to exist (always true for real 32-byte topics). -/
def decode_transfer (log : RLog) : RustRes (Option (Address × Address × Address × Nat)) :=
  if log.topics.head? = some TRANSFER_TOPIC then
    match log.topics.get? 1, log.topics.get? 2 with
    | some t1, some t2 =>
      if 20 ≤ t1.length ∧ 20 ≤ t2.length then
        if beNat log.data < 2 ^ 256 then
          .ok (some (log.address, t1.take 20, t2.take 20, beNat log.data))
        else .panic
      else .panic
    | _, _ => .panic
  else .ok none

/-- One entry of the static `PROTOCOL_ADDRESS_MAPPING` (generated code,
external to the reviewed sources): an optional classifier dispatch closure
(`protocol.0`) and the ABI pre-decoder (`protocol.1.try_decode`, whose
failure `classify_node` unwraps). The dispatch closure receives the 4-byte
signature, node index, return bytes, caller, callee and logs. -/
structure StaticProtocol where
  classifier : Option (Bytes → Nat → Bytes → Address → Address → List RLog → Option Actions)
  tryDecode : Bytes → Option Unit

/-- The static protocol-address table, as a lookup function. -/
abbrev ProtocolMapping := Address → Option StaticProtocol

/-- `classify_node` (classifier.rs lines 166-212). Static path: if the
target address is in the protocol table and a classifier is registered,
slice the 4-byte signature out of the calldata (panics when the calldata is
shorter than 4 bytes), run `try_decode(..).unwrap()` (panics on malformed
calldata), and return the dispatch result when it is `Some`. Fallback: keep
the logs emitted by the caller's own address; if there is exactly one and
it decodes as a transfer, return a `Transfer`; otherwise return
`Unclassified` with the raw trace and the caller-emitted logs. -/
def classify_node (pam : ProtocolMapping) (trace : TransactionTraceWithLogs)
    (index : Nat) : RustRes Actions :=
  let from_address := trace.frm
  let target_address := trace.dst
  let fallback : RustRes Actions :=
    let rem := trace.logs.filter (fun log => log.address = from_address)
    if rem.length = 1 then
      match rem.head? with
      | some l =>
        RustRes.bind (decode_transfer l) (fun dec =>
          match dec with
          | some (addr, frm, dst, value) =>
            .ok (.transfer ⟨index, dst, frm, addr, value⟩)
          | none => .ok (.unclassified trace rem))
      | none => .ok (.unclassified trace rem)
    else .ok (.unclassified trace rem)
  match pam target_address with
  | some protocol =>
    match protocol.classifier with
    | some dispatch =>
      if trace.input.length < 4 then .panic
      else
        let sig := trace.input.take 4
        match protocol.tryDecode trace.input with
        | none => .panic
        | some _ =>
          match dispatch sig index trace.output from_address target_address trace.logs with
          | some res => .ok res
          | none => fallback
    | none => fallback
  | none => fallback

/-- `get_coinbase_transfer` (classifier.rs lines 154-164): `Some(value)` when
the raw action is a `Call` whose target is the builder; the `value.to()`
conversion to `u64` panics when the 256-bit value does not fit in 64 bits. -/
def get_coinbase_transfer (builder : Address) (action : PAction) : RustRes (Option Nat) :=
  match action with
  | .call _ dst value _ =>
    if dst = builder then
      if value < 2 ^ 64 then .ok (some value) else .panic
    else .ok none
  | .other => .ok none

/-- A tree vertex (brontes-types `Node`, with exactly the fields that
`classifier.rs` constructs: children `inner`, sequence `index`, `finalized`
flag, `subactions`, acting `address`, classified `data`, trace-address
path). Lean structures cannot be recursive, so `Node` is an inductive with
accessor functions. -/
inductive Node where
  | mk (inner : List Node) (index : Nat) (finalized : Bool)
       (subactions : List Actions) (address : Address) (data : Actions)
       (traceAddress : List Nat)

def Node.inner : Node → List Node
  | .mk i _ _ _ _ _ _ => i

def Node.index : Node → Nat
  | .mk _ i _ _ _ _ _ => i

def Node.finalized : Node → Bool
  | .mk _ _ f _ _ _ _ => f

def Node.subactions : Node → List Actions
  | .mk _ _ _ s _ _ _ => s

def Node.address : Node → Address
  | .mk _ _ _ _ a _ _ => a

def Node.data : Node → Actions
  | .mk _ _ _ _ _ d _ => d

def Node.traceAddress : Node → List Nat
  | .mk _ _ _ _ _ _ t => t

mutual

/-- Modelled from the spec: `Node::get_all_sub_actions` (brontes-types, not
part of the reviewed sources). Spec section 4.2 has the inference engine
"collect every Transfer event anywhere within the node's subtree", so the
call returns the classified actions of the node and of every descendant. -/
def Node.getAllSubActions : Node → List Actions
  | .mk inner _ _ _ _ data _ => data :: Node.getAllSubActionsList inner

def Node.getAllSubActionsList : List Node → List Actions
  | [] => []
  | n :: ns => Node.getAllSubActions n ++ Node.getAllSubActionsList ns

end

/-- Boolean prefix test on trace-address paths. -/
def pathLe : List Nat → List Nat → Bool
  | [], _ => true
  | _ :: _, [] => false
  | x :: xs, y :: ys => x == y && pathLe xs ys

mutual

/-- Modelled from the spec: the node-insertion walk of `Root::insert`
(brontes-types, not part of the reviewed sources). Spec section 4.1: insert
"by walking the existing tree following the node's trace-address path,
appending it as a child of the deepest existing ancestor prefix". The walk
descends into the first child whose path is a proper prefix of the new
node's path, else appends the node at the current level. -/
def Node.insertNode : Node → Node → Node
  | .mk inner idx fin sub addr data ta, n =>
    .mk (Node.insertList inner n) idx fin sub addr data ta

def Node.insertList : List Node → Node → List Node
  | [], n => [n]
  | c :: cs, n =>
    if pathLe c.traceAddress n.traceAddress && !(c.traceAddress == n.traceAddress) then
      Node.insertNode c n :: cs
    else
      c :: Node.insertList cs n

end

mutual

/-- Modelled from the spec: preorder collection of every node of a subtree,
the "same-transaction search over all other nodes" that the deduplication
pass performs (spec section 4.3). -/
def Node.collectNodes : Node → List Node
  | .mk inner idx fin sub addr data ta =>
    Node.mk inner idx fin sub addr data ta :: Node.collectNodesList inner

def Node.collectNodesList : List Node → List Node
  | [] => []
  | c :: cs => Node.collectNodes c ++ Node.collectNodesList cs

end

mutual

/-- Modelled from the spec: pruning of subsumed nodes for the deduplication
pass (spec section 4.3: "remove the subsumed nodes from further
consideration (e.g., by marking them for exclusion or pruning)"). Every
node whose index is in the removal list is dropped together with its
subtree. -/
def Node.pruneNode (bad : List Nat) : Node → Node
  | .mk inner idx fin sub addr data ta =>
    .mk (Node.pruneList bad inner) idx fin sub addr data ta

def Node.pruneList (bad : List Nat) : List Node → List Node
  | [] => []
  | c :: cs =>
    if bad.contains c.index then Node.pruneList bad cs
    else Node.pruneNode bad c :: Node.pruneList bad cs

end

mutual

/-- Modelled from the spec: `TimeTree::finalize_tree` (brontes-types, not
part of the reviewed sources). Spec glossary: "Finalize: marking a tree as
closed to further reclassification passes"; every node's `finalized` flag
is set. -/
def Node.finalizeNode : Node → Node
  | .mk inner idx _ sub addr data ta =>
    .mk (Node.finalizeList inner) idx true sub addr data ta

def Node.finalizeList : List Node → List Node
  | [] => []
  | c :: cs => Node.finalizeNode c :: Node.finalizeList cs

end

/-- A discovered dynamic-exchange entry: address with its token pair. -/
abbrev DynPair := Address × (Address × Address)

/-- Replacement of a node's classification by the dynamic-inference pass:
`node.inner.clear(); node.data = res;` in `try_classify_unknown_exchanges`. -/
def Node.withDataCleared : Node → Actions → Node
  | .mk _ idx fin sub addr _ ta, a => .mk [] idx fin sub addr a ta

mutual

/-- Modelled from the spec: the `dyn_classify` traversal contract
(spec section 6: "a `collect_all` / `dyn_classify`-style traversal contract
allowing a caller to supply a node-selection predicate and a per-node
transform, returning any newly-discovered (address → data) pairs").
Nodes are visited from the root down; where the selection predicate (on the
acting address and the subtree's actions) holds, the transform is applied
and the walk does not descend further (the transform either collapses the
subtree or leaves it for a later pass); elsewhere the walk recurses into
the children. Runs in `RustRes` because the wrapped classification
attempts can panic. -/
def Node.dynClassifyNode (sel : Address → List Actions → Bool)
    (f : Node → RustRes (Node × Option DynPair)) :
    Node → RustRes (Node × List DynPair)
  | .mk inner idx fin sub addr data ta =>
    if sel addr (Node.getAllSubActions (.mk inner idx fin sub addr data ta)) then
      RustRes.bind (f (.mk inner idx fin sub addr data ta)) (fun r =>
        .ok (r.1, r.2.toList))
    else
      RustRes.bind (Node.dynClassifyList sel f inner) (fun r =>
        .ok (.mk r.1 idx fin sub addr data ta, r.2))

def Node.dynClassifyList (sel : Address → List Actions → Bool)
    (f : Node → RustRes (Node × Option DynPair)) :
    List Node → RustRes (List Node × List DynPair)
  | [] => .ok ([], [])
  | c :: cs =>
    RustRes.bind (Node.dynClassifyNode sel f c) (fun r1 =>
      RustRes.bind (Node.dynClassifyList sel f cs) (fun r2 =>
        .ok (r1.1 :: r2.1, r1.2 ++ r2.2)))

end

/-- Gas-accounting details of a `Root`, fields as constructed in
`classifier.rs` (`GasDetails`). -/
structure GasDetails where
  coinbaseTransfer : Option Nat
  gasUsed : Nat
  effectiveGasPrice : Nat
  priorityFee : Nat
deriving DecidableEq

/-- One transaction's tree (`Root`), fields as constructed in
`classifier.rs`: head node, transaction hash, the private-submission flag
(`private`, a Lean keyword, hence `priv`), and gas details. -/
structure Root where
  head : Node
  txHash : Nat
  priv : Bool
  gasDetails : GasDetails

/-- Modelled from the spec: `Root::insert` walks the head node's tree and
places the new node by its trace-address path (spec section 4.1). -/
def Root.insert (root : Root) (n : Node) : Root :=
  { root with head := root.head.insertNode n }

/-- The per-block forest (`TimeTree`), fields as constructed in
`classifier.rs`: roots, header, per-block pricing context, average
priority fee. -/
structure TimeTree where
  roots : List Root
  header : Header
  ethPrices : Nat
  avgPriorityFee : Nat

/-- `Vec::remove(index)`: panics when the index is not below the length,
otherwise hands back the removed element and the shortened vector. -/
def vecRemove (xs : List α) (i : Nat) : RustRes (α × List α) :=
  match xs.get? i with
  | some a => .ok (a, xs.eraseIdx i)
  | none => .panic

/-- The transfer-collection loop of `prove_dyn_action` (classifier.rs lines
231-240): decode each log (the decode itself can panic) and keep the
decoded transfer unless the token overlaps neither cached token or the
transfer touches the node's address on neither side. -/
def collectProveTransfers (addr token_0 token_1 : Address) :
    List RLog → RustRes (List (Address × Address × Address × Nat))
  | [] => .ok []
  | log :: rest =>
    RustRes.bind (decode_transfer log) (fun dec =>
      RustRes.bind (collectProveTransfers addr token_0 token_1 rest) (fun tail =>
        match dec with
        | some (token, frm, dst, value) =>
          if (token_0 ≠ token ∧ token_1 ≠ token) ∨ (frm ≠ addr ∧ dst ≠ addr) then
            .ok tail
          else
            .ok ((token, frm, dst, value) :: tail)
        | none => .ok tail))

/-- `prove_dyn_action` (classifier.rs lines 215-319): collect the matching
transfers of the node's subtree; on exactly two, `remove(0)` then
`remove(1)` (the latter out of bounds on the one-element remainder), then
Burn/Mint on a shared to/from pair or Swap on a crossing pair; on exactly
one, Mint when its from is the node's address, else Burn; otherwise `None`. -/
def prove_dyn_action (node : Node) (token_0 token_1 : Address) :
    RustRes (Option Actions) :=
  let addr := node.address
  let subactions := node.getAllSubActions
  let logs := (subactions.map Actions.getLogs).flatten
  RustRes.bind (collectProveTransfers addr token_0 token_1 logs) (fun transfer_data =>
    if transfer_data.length = 2 then
      RustRes.bind (vecRemove transfer_data 0) (fun r0 =>
        RustRes.bind (vecRemove r0.2 1) (fun r1 =>
          let (t0, from0, to0, value0) := r0.1
          let (t1, from1, to1, value1) := r1.1
          if to0 = to1 ∧ from0 = from1 then
            if to0 = node.address then
              .ok (some (.burn ⟨node.index, from0, to0, to1, [t0, t1], [value0, value1]⟩))
            else
              .ok (some (.mint ⟨node.index, to0, to0, to1, [t0, t1], [value0, value1]⟩))
          else if to0 = addr then
            .ok (some (.swap ⟨node.index, to1, to0, t1, t0, value1, value0⟩))
          else
            .ok (some (.swap ⟨node.index, to0, to1, t0, t1, value0, value1⟩))))
    else if transfer_data.length = 1 then
      match transfer_data.head? with
      | some (token, frm, dst, value) =>
        if frm = addr then
          .ok (some (.mint ⟨node.index, frm, dst, dst, [token], [value]⟩))
        else
          .ok (some (.burn ⟨node.index, frm, dst, dst, [token], [value]⟩))
      | none => .ok none
    else .ok none)

/-- The transfer-collection loop of `try_clasify_exchange` (classifier.rs
lines 369-377): decode each log and keep the transfer unless it touches
the node's address on neither side. -/
def collectExchangeTransfers (addr : Address) :
    List RLog → RustRes (List (Address × Address × Address × Nat))
  | [] => .ok []
  | log :: rest =>
    RustRes.bind (decode_transfer log) (fun dec =>
      RustRes.bind (collectExchangeTransfers addr rest) (fun tail =>
        match dec with
        | some (token, frm, dst, value) =>
          if frm ≠ addr ∧ dst ≠ addr then .ok tail
          else .ok ((token, frm, dst, value) :: tail)
        | none => .ok tail))

/-- `try_clasify_exchange` (classifier.rs lines 355-419): collect the
transfers touching the node's address; unless exactly two, `None`;
otherwise `remove(0)` then `remove(1)` (the latter out of bounds on the
one-element remainder), then on distinct tokens, both transfers touching
the address and distinct senders, a Swap (the branch condition compares
the FIRST TOKEN with the node address), also returning the (address,
token pair) to register. -/
def try_clasify_exchange (node : Node) :
    RustRes (Option (Address × (Address × Address) × Actions)) :=
  let addr := node.address
  let subactions := node.getAllSubActions
  let logs := (subactions.map Actions.getLogs).flatten
  RustRes.bind (collectExchangeTransfers addr logs) (fun transfer_data =>
    if transfer_data.length ≠ 2 then .ok none
    else
      RustRes.bind (vecRemove transfer_data 0) (fun r0 =>
        RustRes.bind (vecRemove r0.2 1) (fun r1 =>
          let (t0, from0, to0, value0) := r0.1
          let (t1, from1, to1, value1) := r1.1
          if t0 ≠ t1 ∧ (from0 = addr ∨ to0 = addr) ∧ (from1 = addr ∨ to1 = addr)
              ∧ from0 ≠ from1 then
            let swap : Actions :=
              if t0 = addr then
                .swap ⟨node.index, addr, to0, t1, t0, value1, value0⟩
              else
                .swap ⟨node.index, addr, to1, t0, t1, value0, value1⟩
            .ok (some (addr, (t0, t1), swap))
          else .ok none)))

/-- `is_possible_exchange` (classifier.rs lines 334-352): true iff some
address appears both as a `to` and as a `from` of the observed Transfer
actions. -/
def is_possible_exchange (actions : List Actions) : Bool :=
  let to_address := actions.filterMap (fun a =>
    match a with | .transfer t => some t.dst | _ => none)
  let from_address := actions.filterMap (fun a =>
    match a with | .transfer t => some t.frm | _ => none)
  to_address.any (fun dst => from_address.contains dst)

/-- The in-process known-dynamic-protocol cache contents, as a lookup. -/
abbrev KnownDyn := Address → Option (Address × Address)

/-- The selection predicate of `try_classify_unknown_exchanges`
(classifier.rs lines 430-443): statically classified addresses are never
reinterpreted; otherwise a node qualifies when its address is a known
dynamic protocol or its subtree's transfers look like an exchange. -/
def dynSel (pam : ProtocolMapping) (known : KnownDyn)
    (address : Address) (sub_actions : List Actions) : Bool :=
  if (pam address).isSome then false
  else if (known address).isSome || is_possible_exchange sub_actions then true
  else false

/-- The transform closure of `try_classify_unknown_exchanges`
(classifier.rs lines 444-459): for a known dynamic protocol run
`prove_dyn_action` and replace the node's action (collapsing the children)
on success; otherwise run `try_clasify_exchange`, replace on success and
surface the discovered (address, token-pair). -/
def dynTransform (known : KnownDyn) (node : Node) :
    RustRes (Node × Option DynPair) :=
  match known node.address with
  | some tokens =>
    RustRes.bind (prove_dyn_action node tokens.1 tokens.2) (fun res =>
      match res with
      | some res => .ok (node.withDataCleared res, none)
      | none => .ok (node, none))
  | none =>
    RustRes.bind (try_clasify_exchange node) (fun r =>
      match r with
      | some (ex_addr, tokens, action) =>
        .ok (node.withDataCleared action, some (ex_addr, tokens))
      | none => .ok (node, none))

/-- Traversal of `dyn_classify` over every root of the forest, collecting
the newly discovered exchange pairs. -/
def dynClassifyRoots (sel : Address → List Actions → Bool)
    (f : Node → RustRes (Node × Option DynPair)) :
    List Root → RustRes (List Root × List DynPair)
  | [] => .ok ([], [])
  | r :: rs =>
    RustRes.bind (r.head.dynClassifyNode sel f) (fun r1 =>
      RustRes.bind (dynClassifyRoots sel f rs) (fun r2 =>
        .ok ({ r with head := r1.1 } :: r2.1, r1.2 ++ r2.2)))

/-- `try_classify_unknown_exchanges` (classifier.rs lines 425-470): run the
`dyn_classify` traversal with the selection predicate and transform above.
The newly discovered pairs are returned (the Rust code batches them into
the shared cache after the pass; the cache itself lives outside the tree). -/
def try_classify_unknown_exchanges (pam : ProtocolMapping) (known : KnownDyn)
    (tree : TimeTree) : RustRes (TimeTree × List DynPair) :=
  RustRes.bind (dynClassifyRoots (dynSel pam known) (dynTransform known) tree.roots)
    (fun r => .ok ({ tree with roots := r.1 }, r.2))

/-- Modelled from the spec: `Root`-level `remove_duplicate_data`
(brontes-types, not part of the reviewed sources). Spec section 4.3: given
a predicate selecting primary actions, a same-transaction search over all
OTHER nodes' classified actions, and a key extractor, remove the subsumed
nodes. Every node of the transaction is collected; for each primary node
the classify closure picks the subsumed indices out of the other nodes'
(index, action) pairs; the flagged nodes are pruned. -/
def Root.removeDuplicateData (find : Node → Bool)
    (classify : List (Nat × Actions) → Node → List Nat)
    (info : Node → Nat × Actions) (root : Root) : Root :=
  let nodes := root.head.collectNodes
  let bad := (nodes.filter find).map (fun n =>
    classify ((nodes.filter (fun m => m.index ≠ n.index)).map info) n)
  { root with head := root.head.pruneNode bad.flatten }

/-- Modelled from the spec: `TimeTree::remove_duplicate_data` applies the
per-transaction deduplication to every root (spec section 4.3). -/
def TimeTree.removeDuplicateData (find : Node → Bool)
    (classify : List (Nat × Actions) → Node → List Nat)
    (info : Node → Nat × Actions) (tree : TimeTree) : TimeTree :=
  { tree with roots := tree.roots.map (Root.removeDuplicateData find classify info) }

/-- Modelled from the spec: `TimeTree::finalize_tree` marks every node
finalized (spec glossary: closing the tree to further reclassification). -/
def TimeTree.finalizeTree (tree : TimeTree) : TimeTree :=
  { tree with roots := tree.roots.map (fun r => { r with head := r.head.finalizeNode }) }

/-- The swap-deduplication closure of `build_tree` (classifier.rs lines
110-124): an other node is subsumed when it is a Transfer whose amount and
token equal the swap's `amount_in` / `token_in`. The `unreachable!()` arm
of the source (a non-Swap slipping past the `is_swap` find predicate) is
modelled as selecting nothing. -/
def swapDedupClassify (other_nodes : List (Nat × Actions)) (node : Node) : List Nat :=
  match node.data with
  | .swap swap_data =>
    other_nodes.filterMap (fun p =>
      match p.2 with
      | .transfer transfer =>
        if transfer.amount = swap_data.amountIn ∧ transfer.token = swap_data.tokenIn then
          some p.1
        else none
      | _ => none)
  | _ => []

/-- The mint-deduplication closure of `build_tree` (classifier.rs lines
131-145): an other node is subsumed when it is a Transfer matching one of
the mint's (amount, token) pairs. -/
def mintDedupClassify (other_nodes : List (Nat × Actions)) (node : Node) : List Nat :=
  match node.data with
  | .mint mint_data =>
    other_nodes.filterMap (fun p =>
      match p.2 with
      | .transfer transfer =>
        if (mint_data.amount.zip mint_data.token).any
            (fun q => transfer.amount == q.1 && transfer.token == q.2) then
          some p.1
        else none
      | _ => none)
  | _ => []

/-- The remaining-record loop of `build_tree` (classifier.rs lines 74-91):
each iteration OVERWRITES the root's coinbase-transfer field with the scan
of the current record's raw action, classifies the record at `index + 1`,
and inserts the wrapped node. -/
def insertLoop (pam : ProtocolMapping) (beneficiary : Address) :
    List TransactionTraceWithLogs → Nat → Root → RustRes Root
  | [], _, root => .ok root
  | t :: rest, index, root =>
    RustRes.bind (get_coinbase_transfer beneficiary t.action) (fun cb =>
      let root := { root with gasDetails := { root.gasDetails with coinbaseTransfer := cb } }
      RustRes.bind (classify_node pam t (index + 1)) (fun classification =>
        let node : Node := .mk [] (index + 1) (!classification.isUnclassified) []
          t.frm classification t.traceAddress
        insertLoop pam beneficiary rest (index + 1) (root.insert node)))

/-- The per-transaction closure of `build_tree` (classifier.rs lines
42-94): empty trace lists are skipped (no Root); otherwise the root record
is classified at index 0, the Root is assembled (private flag `false`,
priority fee `effective_price - base_fee_per_gas.unwrap()`, which panics
when the header has no base fee), and the remaining records are iterated
by `insertLoop`. -/
def buildRoot (pam : ProtocolMapping) (header : Header) (trace : TxTrace) :
    RustRes (Option Root) :=
  match trace.trace with
  | [] => .ok none
  | root_trace :: rest =>
    let address := root_trace.frm
    RustRes.bind (classify_node pam root_trace 0) (fun classification =>
      match header.baseFeePerGas with
      | none => .panic
      | some base_fee =>
        let node : Node := .mk [] 0 (!classification.isUnclassified) []
          address classification root_trace.traceAddress
        let root : Root :=
          { head := node
            txHash := trace.txHash
            priv := false
            gasDetails :=
              { coinbaseTransfer := none
                gasUsed := trace.gasUsed
                effectiveGasPrice := trace.effectivePrice
                priorityFee := trace.effectivePrice - base_fee } }
        RustRes.bind (insertLoop pam header.beneficiary rest 0 root)
          (fun root => .ok (some root)))

/-- The root-collection phase of `build_tree` (the `filter_map` over the
transactions' traces, order-preserving). -/
def buildRoots (pam : ProtocolMapping) (header : Header) :
    List TxTrace → RustRes (List Root)
  | [] => .ok []
  | t :: ts =>
    RustRes.bind (buildRoot pam header t) (fun r =>
      RustRes.bind (buildRoots pam header ts) (fun rs =>
        .ok (match r with
             | some root => root :: rs
             | none => rs)))

/-- `build_tree` (classifier.rs lines 34-152): collect the Roots, run the
dynamic-exchange pass, deduplicate swaps then mints, finalize. The static
protocol table and the current known-dynamic-protocol cache contents are
passed explicitly. -/
def build_tree (pam : ProtocolMapping) (known : KnownDyn) (traces : List TxTrace)
    (header : Header) (eth_prices : Nat) : RustRes TimeTree :=
  RustRes.bind (buildRoots pam header traces) (fun roots =>
    let tree : TimeTree :=
      { roots := roots, header := header, ethPrices := eth_prices, avgPriorityFee := 0 }
    RustRes.bind (try_classify_unknown_exchanges pam known tree) (fun r =>
      let tree := r.1.removeDuplicateData (fun node => node.data.isSwap)
        swapDedupClassify (fun node => (node.index, node.data))
      let tree := tree.removeDuplicateData (fun node => node.data.isMint)
        mintDedupClassify (fun node => (node.index, node.data))
      .ok tree.finalizeTree))

/-! Concrete fixtures shared by the claim theorems below. -/

/-- A 20-byte address with distinguishing first byte. -/
def mkAddr (b : Byte) : Address := b :: List.replicate 19 0

/-- Twelve zero bytes of topic padding. -/
def pad12 : Bytes := List.replicate 12 0

/-- A 32-byte big-endian word holding the single byte `v`. -/
def beData (v : Byte) : Bytes := List.replicate 31 0 ++ [v]

/-- A canonical transfer log with the from/to addresses in the FIRST 20
bytes of topics 1 and 2 (the layout `decode_transfer` actually reads). -/
def transferLog (token frm dst : Address) (v : Byte) : RLog :=
  ⟨token, [TRANSFER_TOPIC, frm ++ pad12, dst ++ pad12], beData v⟩

/-- An empty static protocol table. -/
def pamEmpty : ProtocolMapping := fun _ => none

/-- An empty known-dynamic-protocol cache. -/
def knownEmpty : KnownDyn := fun _ => none

theorem takeLenAppend (l₁ l₂ : List α) : (l₁ ++ l₂).take l₁.length = l₁ := by
  induction l₁ with
  | nil => simp
  | cons a t ih => simp [ih]

/-- A transfer log whose from/to addresses are LEFT-padded into topics 1
and 2 (the layout claim C2 describes). -/
def leftPadLog : RLog :=
  ⟨mkAddr 9, [TRANSFER_TOPIC, pad12 ++ mkAddr 1, pad12 ++ mkAddr 2], beData 7⟩

/-- Claim C2 (counterexample): a log whose from/to addresses are
left-padded to 32 bytes in topics 1 and 2 does NOT decode to the same
from/to — `decode_transfer` reads the first 20 bytes of each topic, so the
left-padded address `mkAddr 1` comes back as 12 zero bytes followed by the
first 8 bytes of the address, a different address. -/
theorem C2_left_padded_decode_counterexample :
    decode_transfer leftPadLog
      = .ok (some (mkAddr 9, pad12 ++ [1, 0, 0, 0, 0, 0, 0, 0],
                   pad12 ++ [2, 0, 0, 0, 0, 0, 0, 0], 7))
    ∧ pad12 ++ [1, 0, 0, 0, 0, 0, 0, 0] ≠ mkAddr 1 := by
  exact ⟨by decide, by decide⟩

/-- Claim C2 (amended): for every log whose topic0 is the canonical
transfer signature, whose from/to addresses occupy the FIRST 20 bytes of
topics 1 and 2 (right-padded), and whose data holds a big-endian amount
fitting 256 bits, `decode_transfer` returns exactly that from, to and
amount (with the emitting address as token); and for every log with any
other topic0 it returns nothing. -/
theorem C2_decode_transfer_roundtrip_amended
    (token fromA toA : Address) (p1 p2 data : Bytes) (log : RLog)
    (h1 : fromA.length = 20) (h2 : toA.length = 20)
    (hd : beNat data < 2 ^ 256)
    (hlog : log.topics.head? ≠ some TRANSFER_TOPIC) :
    decode_transfer ⟨token, [TRANSFER_TOPIC, fromA ++ p1, toA ++ p2], data⟩
      = .ok (some (token, fromA, toA, beNat data))
    ∧ decode_transfer log = .ok none := by
  constructor
  · have ht1 : (fromA ++ p1).take 20 = fromA := by rw [← h1]; exact takeLenAppend _ _
    have ht2 : (toA ++ p2).take 20 = toA := by rw [← h2]; exact takeLenAppend _ _
    simp [decode_transfer, hd, ht1, ht2, h1, h2]
    norm_num at hd ⊢
    exact hd
  · simp [decode_transfer, hlog]

/-- Concrete witness input for the amended C2 theorem. -/
theorem C2_decode_transfer_roundtrip_amended_witness :
    decode_transfer ⟨mkAddr 9, [TRANSFER_TOPIC, mkAddr 1 ++ pad12, mkAddr 2 ++ pad12], beData 7⟩
      = .ok (some (mkAddr 9, mkAddr 1, mkAddr 2, beNat (beData 7)))
    ∧ decode_transfer ⟨mkAddr 9, [], []⟩ = .ok none :=
  C2_decode_transfer_roundtrip_amended (mkAddr 9) (mkAddr 1) (mkAddr 2)
    pad12 pad12 (beData 7) ⟨mkAddr 9, [], []⟩
    (by decide) (by decide) (by decide) (by decide)

/-- The amended C8 description of `classify_node`'s fallback, written from
the corrected claim's words: among the record's logs, those EMITTED BY THE
CALLER's address are kept; when exactly one such log exists and it decodes
as a canonical transfer, the result is a Transfer with its token, from, to
and amount; otherwise the result is Unclassified carrying the raw record
and the caller-emitted logs. -/
def classifyFallbackSpec (trace : TransactionTraceWithLogs) (index : Nat) :
    RustRes Actions :=
  let callerLogs := trace.logs.filter (fun log => log.address = trace.frm)
  match callerLogs with
  | [l] =>
    RustRes.bind (decode_transfer l) (fun dec =>
      match dec with
      | some (token, frm, dst, v) => .ok (.transfer ⟨index, dst, frm, token, v⟩)
      | none => .ok (.unclassified trace [l]))
  | _ => .ok (.unclassified trace callerLogs)

/-- A record whose caller emits two logs, exactly one of which matches the
canonical transfer signature. -/
def c8Trace : TransactionTraceWithLogs :=
  { frm := mkAddr 9, dst := mkAddr 2, input := [], output := [],
    logs := [transferLog (mkAddr 9) (mkAddr 1) (mkAddr 2) 7, ⟨mkAddr 9, [], []⟩],
    traceAddress := [], action := .other }

/-- Claim C8 (counterexample): with two caller-emitted logs of which
exactly one matches the transfer signature, `classify_node` does NOT
return the Transfer the claim promises — the caller-address filter keeps
both logs, the exactly-one test fails, and the record stays Unclassified. -/
theorem C8_two_caller_logs_counterexample :
    classify_node pamEmpty c8Trace 0
      = .ok (.unclassified c8Trace
          [transferLog (mkAddr 9) (mkAddr 1) (mkAddr 2) 7, ⟨mkAddr 9, [], []⟩])
    ∧ classify_node pamEmpty c8Trace 0
      ≠ .ok (.transfer ⟨0, mkAddr 2, mkAddr 1, mkAddr 9, 7⟩) := by
  exact ⟨by decide, by decide⟩

/-- Claim C8 (amended): for every record whose target address has no
static-protocol entry, `classify_node` behaves exactly as
`classifyFallbackSpec`: a Transfer when the CALLER-EMITTED logs number
exactly one and that log decodes as a canonical transfer, otherwise
Unclassified carrying the raw record and the caller-emitted logs (not the
unconsumed residue of all logs). -/
theorem C8_classify_node_fallback_amended (pam : ProtocolMapping)
    (trace : TransactionTraceWithLogs) (index : Nat)
    (hpam : pam trace.dst = none) :
    classify_node pam trace index = classifyFallbackSpec trace index := by
  simp only [classify_node, classifyFallbackSpec, hpam]
  rcases hf : trace.logs.filter (fun log => log.address = trace.frm) with _ | ⟨l, _ | ⟨l2, ls⟩⟩
  · simp [hf]
  · simp [hf]
  · simp [hf]

/-- Concrete witness input for the amended C8 theorem. -/
theorem C8_classify_node_fallback_amended_witness :
    pamEmpty c8Trace.dst = none
    ∧ classify_node pamEmpty c8Trace 3 = classifyFallbackSpec c8Trace 3 :=
  ⟨rfl, C8_classify_node_fallback_amended pamEmpty c8Trace 3 rfl⟩

/-- A minimal well-behaved trace record: no logs, unmapped target. -/
def plainRec : TransactionTraceWithLogs :=
  { frm := mkAddr 1, dst := mkAddr 2, input := [], output := [],
    logs := [], traceAddress := [], action := .other }

/-- A transfer-topic log whose 33-byte data encodes a value of `2 ^ 256`,
too large for `U256`: `try_from_be_slice` yields `None` and the `unwrap`
in `decode_transfer` panics. -/
def overflowLog : RLog :=
  ⟨mkAddr 3, [TRANSFER_TOPIC, mkAddr 1 ++ pad12, mkAddr 2 ++ pad12],
   1 :: List.replicate 32 0⟩

/-- A record whose caller emits exactly one log: the overflowing transfer
log above, which makes `classify_node`'s fallback decode panic. -/
def overflowRec : TransactionTraceWithLogs :=
  { frm := mkAddr 3, dst := mkAddr 4, input := [], output := [],
    logs := [overflowLog], traceAddress := [0], action := .other }

/-- A transaction holding one well-behaved record and the panicking one. -/
def c1Tx : TxTrace :=
  { trace := [plainRec, overflowRec], txHash := 1, gasUsed := 21000,
    effectivePrice := 10 }

/-- A block header with beneficiary `mkAddr 50` and base fee 3. -/
def hdrWithFee : Header := ⟨mkAddr 50, some 3⟩

/-- Claim C1 (code bug): a decode failure during node classification is
NOT local — decoding the second record's single caller-emitted transfer
log hits `U256::try_from_be_slice(..).unwrap()` on a 33-byte value and
panics, aborting `build_tree` for the whole block instead of degrading the
node to Unclassified. -/
theorem C1_decode_failure_aborts_block :
    build_tree pamEmpty knownEmpty [c1Tx] hdrWithFee 0 = .panic := rfl

/-- Claim C7 (code bug): with a header lacking a base fee, the per-root
`base_fee_per_gas.unwrap()` panics as soon as one transaction has a
nonempty trace, so tree construction does not complete. -/
theorem C7_missing_base_fee_panics :
    build_tree pamEmpty knownEmpty
      [{ trace := [plainRec], txHash := 2, gasUsed := 1, effectivePrice := 10 }]
      ⟨mkAddr 50, none⟩ 0 = .panic := rfl

/-- A node over pool address `mkAddr 10` whose subtree carries the two
crossing transfers of claim C3: counterparty `mkAddr 5` sends token
`mkAddr 20` to the pool, the pool sends token `mkAddr 21` back. -/
def c3Node : Node :=
  .mk [] 2 false [] (mkAddr 10)
    (.unclassified plainRec
      [transferLog (mkAddr 20) (mkAddr 5) (mkAddr 10) 7,
       transferLog (mkAddr 21) (mkAddr 10) (mkAddr 5) 9]) []

/-- The same node with the two transfer logs in the opposite order. -/
def c3NodeRev : Node :=
  .mk [] 2 false [] (mkAddr 10)
    (.unclassified plainRec
      [transferLog (mkAddr 21) (mkAddr 10) (mkAddr 5) 9,
       transferLog (mkAddr 20) (mkAddr 5) (mkAddr 10) 7]) []

/-- Claim C3 (code bug): on the two-transfer exchange pattern, in either
log order, `try_clasify_exchange` panics — `transfer_data.remove(0)`
followed by `transfer_data.remove(1)` indexes past the end of the
one-element remainder — so no Swap is ever produced. -/
theorem C3_classify_exchange_panics :
    try_clasify_exchange c3Node = .panic
    ∧ try_clasify_exchange c3NodeRev = .panic := ⟨rfl, rfl⟩

/-- A node at address `mkAddr 10` whose subtree carries two transfers with
the same from (`mkAddr 5`) and the same to (the node itself) in the two
cached tokens — claim C4's Burn case. -/
def c4Node : Node :=
  .mk [] 4 false [] (mkAddr 10)
    (.unclassified plainRec
      [transferLog (mkAddr 20) (mkAddr 5) (mkAddr 10) 7,
       transferLog (mkAddr 21) (mkAddr 5) (mkAddr 10) 9]) []

/-- Claim C4 (code bug): with exactly two matching transfers sharing to and
from, `prove_dyn_action` panics (`remove(0)` then `remove(1)` on the
one-element remainder) instead of producing the Burn/Mint the claim
describes. -/
theorem C4_prove_dyn_two_transfers_panics :
    prove_dyn_action c4Node (mkAddr 20) (mkAddr 21) = .panic := rfl

/-- A node at address `mkAddr 11` with two collected transfers sharing
from `mkAddr 6` and to equal to the node's own address. -/
def c5Node : Node :=
  .mk [] 5 false [] (mkAddr 11)
    (.unclassified plainRec
      [transferLog (mkAddr 22) (mkAddr 6) (mkAddr 11) 3,
       transferLog (mkAddr 23) (mkAddr 6) (mkAddr 11) 4]) []

/-- The same node with the two transfer logs in the opposite order. -/
def c5NodeRev : Node :=
  .mk [] 5 false [] (mkAddr 11)
    (.unclassified plainRec
      [transferLog (mkAddr 23) (mkAddr 6) (mkAddr 11) 4,
       transferLog (mkAddr 22) (mkAddr 6) (mkAddr 11) 3]) []

/-- Whether a classification attempt came back as a Mint. -/
def isMintRes : RustRes (Option Actions) → Bool
  | .ok (some (.mint _)) => true
  | _ => false

/-- Claim C5 (counterexample): two collected transfers sharing to and from,
with the shared to equal to the subject node's address, produce NO Mint in
either input order — `prove_dyn_action` panics on `remove(1)` before any
branch is taken (and even the unreachable branch structure would choose
Burn, not Mint, for a shared to equal to the node's address). -/
theorem C5_mint_burn_counterexample :
    prove_dyn_action c5Node (mkAddr 22) (mkAddr 23) = .panic
    ∧ isMintRes (prove_dyn_action c5Node (mkAddr 22) (mkAddr 23)) = false
    ∧ isMintRes (prove_dyn_action c5NodeRev (mkAddr 22) (mkAddr 23)) = false :=
  ⟨rfl, rfl, rfl⟩

/-- Claim C5 (amended): whenever the collection loop of `prove_dyn_action`
finds exactly two matching transfers — in particular every pair sharing
identical to and from — the function panics with an out-of-bounds
`Vec::remove(1)` regardless of the order of the two transfers, and neither
Mint nor Burn is produced. -/
theorem C5_collected_pair_panics_amended (node : Node) (token_0 token_1 : Address)
    (td : List (Address × Address × Address × Nat))
    (h : collectProveTransfers node.address token_0 token_1
          ((node.getAllSubActions.map Actions.getLogs).flatten) = .ok td)
    (hlen : td.length = 2) :
    prove_dyn_action node token_0 token_1 = .panic := by
  rcases td with _ | ⟨a, _ | ⟨b, _ | ⟨c, rest⟩⟩⟩
  · simp at hlen
  · simp at hlen
  · simp only [prove_dyn_action]
    rw [h]
    simp [vecRemove]
  · simp [List.length_cons] at hlen

/-- Concrete witness input for the amended C5 theorem. -/
theorem C5_collected_pair_panics_amended_witness :
    collectProveTransfers c5Node.address (mkAddr 22) (mkAddr 23)
        ((c5Node.getAllSubActions.map Actions.getLogs).flatten)
      = .ok [(mkAddr 22, mkAddr 6, mkAddr 11, 3), (mkAddr 23, mkAddr 6, mkAddr 11, 4)]
    ∧ prove_dyn_action c5Node (mkAddr 22) (mkAddr 23) = .panic :=
  ⟨by decide, C5_collected_pair_panics_amended c5Node (mkAddr 22) (mkAddr 23)
    [(mkAddr 22, mkAddr 6, mkAddr 11, 3), (mkAddr 23, mkAddr 6, mkAddr 11, 4)]
    (by decide) rfl⟩

/-- A record whose raw action is a value-5 call to the block beneficiary
`mkAddr 50` — a matching coinbase-transfer record. -/
def cbRec : TransactionTraceWithLogs :=
  { frm := mkAddr 1, dst := mkAddr 50, input := [], output := [],
    logs := [], traceAddress := [0], action := .call (mkAddr 1) (mkAddr 50) 5 [] }

/-- A non-matching trailing record. -/
def tailRec : TransactionTraceWithLogs :=
  { frm := mkAddr 1, dst := mkAddr 2, input := [], output := [],
    logs := [], traceAddress := [1], action := .other }

/-- A transaction whose FIRST non-root record is the matching coinbase
transfer and whose LAST record does not match. -/
def c6Tx : TxTrace :=
  { trace := [plainRec, cbRec, tailRec], txHash := 3, gasUsed := 1,
    effectivePrice := 10 }

/-- The coinbase-transfer field of a per-transaction build result. -/
def rootCoinbase : RustRes (Option Root) → RustRes (Option (Option Nat))
  | .panic => .panic
  | .ok none => .ok none
  | .ok (some r) => .ok (some r.gasDetails.coinbaseTransfer)

/-- Claim C6 (counterexample): with the first non-root record a value-5
call to the beneficiary and a later non-matching record, the Root records
NO coinbase transfer — the loop overwrites the field on every iteration,
so the first match is lost, contradicting the claim's "first match is
recorded". -/
theorem C6_first_match_counterexample :
    rootCoinbase (buildRoot pamEmpty hdrWithFee c6Tx) = .ok (some none)
    ∧ rootCoinbase (buildRoot pamEmpty hdrWithFee c6Tx) ≠ .ok (some (some 5)) :=
  ⟨by decide, by decide⟩

theorem getLastCons (a b : α) (l : List α) :
    (a :: b :: l).getLast? = (b :: l).getLast? := by
  induction l <;> simp [List.getLast?]

theorem insertLoop_coinbase_last (pam : ProtocolMapping) (ben : Address)
    (tlast : TransactionTraceWithLogs) :
    ∀ (ts : List TransactionTraceWithLogs) (idx : Nat) (root r : Root),
      ts.getLast? = some tlast → insertLoop pam ben ts idx root = .ok r →
      RustRes.ok r.gasDetails.coinbaseTransfer
        = get_coinbase_transfer ben tlast.action := by
  intro ts
  induction ts with
  | nil => intro idx root r hlast; simp at hlast
  | cons t ts' ih =>
    intro idx root r hlast hrun
    simp only [insertLoop] at hrun
    cases hcb : get_coinbase_transfer ben t.action with
    | panic => rw [hcb] at hrun; simp at hrun
    | ok cb =>
      rw [hcb] at hrun
      simp only [RustRes.bind_ok] at hrun
      cases hcl : classify_node pam t (idx + 1) with
      | panic => rw [hcl] at hrun; simp at hrun
      | ok c =>
        rw [hcl] at hrun
        simp only [RustRes.bind_ok] at hrun
        cases ts' with
        | nil =>
          have ht : t = tlast := by simpa using hlast
          subst ht
          simp only [insertLoop] at hrun
          have hr : r = Root.insert
              { root with gasDetails := { root.gasDetails with coinbaseTransfer := cb } }
              (.mk [] (idx + 1) (!c.isUnclassified) [] t.frm c t.traceAddress) := by
            cases hrun; rfl
          rw [hr, hcb]
          rfl
        | cons t2 ts'' =>
          rw [getLastCons] at hlast
          exact ih _ _ _ hlast hrun

/-- Claim C6 (amended): the coinbase-transfer field is overwritten on every
iteration of `build_tree`'s record loop, so the amount recorded at the
Root is the scan result of the LAST non-root record — `Some v` exactly
when that final record's raw action is a value-`v` call to the block's
beneficiary, `None` otherwise, regardless of earlier matching records. -/
theorem C6_last_record_coinbase_amended (pam : ProtocolMapping) (header : Header)
    (tx : TxTrace) (rt tlast : TransactionTraceWithLogs)
    (rest : List TransactionTraceWithLogs) (root : Root)
    (htr : tx.trace = rt :: rest) (hlast : rest.getLast? = some tlast)
    (hok : buildRoot pam header tx = .ok (some root)) :
    RustRes.ok root.gasDetails.coinbaseTransfer
      = get_coinbase_transfer header.beneficiary tlast.action := by
  simp only [buildRoot, htr] at hok
  cases hcl : classify_node pam rt 0 with
  | panic => rw [hcl] at hok; simp at hok
  | ok c =>
    rw [hcl] at hok
    simp only [RustRes.bind_ok] at hok
    cases hbf : header.baseFeePerGas with
    | none => rw [hbf] at hok; simp at hok
    | some bf =>
      rw [hbf] at hok
      simp only at hok
      cases hrun : insertLoop pam header.beneficiary rest 0
          { head := .mk [] 0 (!c.isUnclassified) [] rt.frm c rt.traceAddress
            txHash := tx.txHash
            priv := false
            gasDetails :=
              { coinbaseTransfer := none
                gasUsed := tx.gasUsed
                effectiveGasPrice := tx.effectivePrice
                priorityFee := tx.effectivePrice - bf } } with
      | panic => rw [hrun] at hok; simp at hok
      | ok r' =>
        rw [hrun] at hok
        simp only [RustRes.bind_ok] at hok
        have hr : r' = root := by
          cases hok
          rfl
        rw [← hr]
        exact insertLoop_coinbase_last pam header.beneficiary tlast rest 0 _ r' hlast hrun

/-- A transaction whose single non-root record is the coinbase match. -/
def c6wTx : TxTrace :=
  { trace := [plainRec, cbRec], txHash := 4, gasUsed := 1, effectivePrice := 10 }

/-- The node `buildRoot` makes for `cbRec` at index 1. -/
def c6wNode : Node := .mk [] 1 false [] (mkAddr 1) (.unclassified cbRec []) [0]

/-- The Root `buildRoot` produces for `c6wTx` under `hdrWithFee`. -/
def c6wRoot : Root :=
  { head := .mk [c6wNode] 0 false [] (mkAddr 1) (.unclassified plainRec []) []
    txHash := 4
    priv := false
    gasDetails :=
      { coinbaseTransfer := some 5, gasUsed := 1, effectiveGasPrice := 10,
        priorityFee := 7 } }

/-- Concrete witness input for the amended C6 theorem. -/
theorem C6_last_record_coinbase_amended_witness :
    c6wTx.trace = [plainRec, cbRec]
    ∧ [cbRec].getLast? = some cbRec
    ∧ buildRoot pamEmpty hdrWithFee c6wTx = .ok (some c6wRoot)
    ∧ RustRes.ok c6wRoot.gasDetails.coinbaseTransfer
        = get_coinbase_transfer hdrWithFee.beneficiary cbRec.action :=
  ⟨rfl, rfl, rfl,
    C6_last_record_coinbase_amended pamEmpty hdrWithFee c6wTx plainRec cbRec
      [cbRec] c6wRoot rfl rfl rfl⟩

theorem RustRes.bind_id (m : RustRes α) : RustRes.bind m (fun a => .ok a) = m := by
  cases m <;> rfl

theorem buildRoots_empty_mid (pam : ProtocolMapping) (header : Header)
    (etx : TxTrace) (h : etx.trace = []) :
    ∀ xs ys, buildRoots pam header (xs ++ etx :: ys)
      = buildRoots pam header (xs ++ ys) := by
  intro xs
  induction xs with
  | nil =>
    intro ys
    simp only [List.nil_append, buildRoots]
    have hb : buildRoot pam header etx = .ok none := by
      simp only [buildRoot, h]
    rw [hb]
    simp only [RustRes.bind_ok]
    cases buildRoots pam header ys <;> rfl
  | cons x xs' ih =>
    intro ys
    simp only [List.cons_append, buildRoots]
    cases hb : buildRoot pam header x with
    | panic => rfl
    | ok ro =>
      simp only [RustRes.bind_ok, List.append_eq]
      rw [ih ys]

/-- Claim C9: a transaction with an empty trace-record list contributes no
Root and leaves the rest of the block's construction untouched —
`build_tree` on a trace list with such a transaction spliced in anywhere
equals `build_tree` without it, panics included. -/
theorem C9_empty_trace_skipped (pam : ProtocolMapping) (known : KnownDyn)
    (xs ys : List TxTrace) (header : Header) (prices : Nat) (etx : TxTrace)
    (h : etx.trace = []) :
    build_tree pam known (xs ++ etx :: ys) header prices
      = build_tree pam known (xs ++ ys) header prices := by
  unfold build_tree
  rw [buildRoots_empty_mid pam header etx h xs ys]

/-- An empty-traced transaction. -/
def emptyTx : TxTrace := { trace := [], txHash := 0, gasUsed := 0, effectivePrice := 0 }

/-- Concrete witness input for the C9 theorem. -/
theorem C9_empty_trace_skipped_witness :
    emptyTx.trace = []
    ∧ build_tree pamEmpty knownEmpty ([] ++ emptyTx :: []) hdrWithFee 0
        = build_tree pamEmpty knownEmpty ([] ++ []) hdrWithFee 0 :=
  ⟨rfl, C9_empty_trace_skipped pamEmpty knownEmpty [] [] hdrWithFee 0 emptyTx rfl⟩

/-- Whether every Root of the forest has its private flag unset. -/
def TimeTree.allPrivFalse (t : TimeTree) : Bool := t.roots.all (fun r => !r.priv)

theorem insertLoop_priv (pam : ProtocolMapping) (ben : Address) :
    ∀ (ts : List TransactionTraceWithLogs) (idx : Nat) (root r : Root),
      insertLoop pam ben ts idx root = .ok r → r.priv = root.priv := by
  intro ts
  induction ts with
  | nil =>
    intro idx root r h
    simp only [insertLoop] at h
    cases h
    rfl
  | cons t ts' ih =>
    intro idx root r h
    simp only [insertLoop] at h
    cases hcb : get_coinbase_transfer ben t.action with
    | panic => rw [hcb] at h; simp at h
    | ok cb =>
      rw [hcb] at h
      simp only [RustRes.bind_ok] at h
      cases hcl : classify_node pam t (idx + 1) with
      | panic => rw [hcl] at h; simp at h
      | ok c =>
        rw [hcl] at h
        simp only [RustRes.bind_ok] at h
        simpa [Root.insert] using ih _ _ _ h

theorem buildRoot_priv (pam : ProtocolMapping) (header : Header) (tx : TxTrace)
    (root : Root) (h : buildRoot pam header tx = .ok (some root)) :
    root.priv = false := by
  cases htr : tx.trace with
  | nil =>
    simp only [buildRoot, htr] at h
    simp at h
  | cons rt rest =>
    simp only [buildRoot, htr] at h
    cases hcl : classify_node pam rt 0 with
    | panic => rw [hcl] at h; simp at h
    | ok c =>
      rw [hcl] at h
      simp only [RustRes.bind_ok] at h
      cases hbf : header.baseFeePerGas with
      | none => rw [hbf] at h; simp at h
      | some bf =>
        rw [hbf] at h
        simp only at h
        cases hrun : insertLoop pam header.beneficiary rest 0
            { head := .mk [] 0 (!c.isUnclassified) [] rt.frm c rt.traceAddress
              txHash := tx.txHash
              priv := false
              gasDetails :=
                { coinbaseTransfer := none
                  gasUsed := tx.gasUsed
                  effectiveGasPrice := tx.effectivePrice
                  priorityFee := tx.effectivePrice - bf } } with
        | panic => rw [hrun] at h; simp at h
        | ok r' =>
          rw [hrun] at h
          simp only [RustRes.bind_ok] at h
          have hr : r' = root := by cases h; rfl
          rw [← hr]
          exact insertLoop_priv pam header.beneficiary rest 0 _ r' hrun

theorem buildRoots_priv (pam : ProtocolMapping) (header : Header) :
    ∀ (ts : List TxTrace) (roots : List Root),
      buildRoots pam header ts = .ok roots → ∀ r ∈ roots, r.priv = false := by
  intro ts
  induction ts with
  | nil =>
    intro roots h r hr
    simp only [buildRoots] at h
    cases h
    simp at hr
  | cons t ts' ih =>
    intro roots h r hr
    simp only [buildRoots] at h
    cases hb : buildRoot pam header t with
    | panic => rw [hb] at h; simp at h
    | ok ro =>
      rw [hb] at h
      simp only [RustRes.bind_ok] at h
      cases hbs : buildRoots pam header ts' with
      | panic => rw [hbs] at h; simp at h
      | ok rs =>
        rw [hbs] at h
        simp only [RustRes.bind_ok] at h
        cases ro with
        | none =>
          have hroots : rs = roots := by cases h; rfl
          exact ih rs (by rw [hroots] at hbs ⊢; exact hbs) r (by rw [hroots]; exact hr)
        | some r0 =>
          have hroots : r0 :: rs = roots := by cases h; rfl
          rw [← hroots] at hr
          rcases List.mem_cons.mp hr with h1 | h2
          · rw [h1]
            exact buildRoot_priv pam header t r0 hb
          · exact ih rs hbs r h2

theorem dynClassifyRoots_priv (sel : Address → List Actions → Bool)
    (f : Node → RustRes (Node × Option DynPair)) :
    ∀ (rs : List Root) (out : List Root × List DynPair),
      dynClassifyRoots sel f rs = .ok out →
      (∀ r ∈ rs, r.priv = false) → ∀ r' ∈ out.1, r'.priv = false := by
  intro rs
  induction rs with
  | nil =>
    intro out h hall r' hr'
    simp only [dynClassifyRoots] at h
    cases h
    simp at hr'
  | cons r rs' ih =>
    intro out h hall r' hr'
    simp only [dynClassifyRoots] at h
    cases h1 : Node.dynClassifyNode sel f r.head with
    | panic => rw [h1] at h; simp at h
    | ok p1 =>
      rw [h1] at h
      simp only [RustRes.bind_ok] at h
      cases h2 : dynClassifyRoots sel f rs' with
      | panic => rw [h2] at h; simp at h
      | ok p2 =>
        rw [h2] at h
        simp only [RustRes.bind_ok] at h
        have hout : ({ r with head := p1.1 } :: p2.1, p1.2 ++ p2.2) = out := by
          cases h; rfl
        rw [← hout] at hr'
        rcases List.mem_cons.mp hr' with hc | hc
        · rw [hc]
          exact hall r (List.mem_cons_self r rs')
        · exact ih p2 h2 (fun x hx => hall x (List.mem_cons_of_mem r hx)) r' hc

theorem removeDuplicateData_priv (find : Node → Bool)
    (classify : List (Nat × Actions) → Node → List Nat)
    (info : Node → Nat × Actions) (root : Root) :
    (Root.removeDuplicateData find classify info root).priv = root.priv := rfl

/-- Claim C10: every Root that `build_tree` produces has its private flag
false — the flag is set to `false` at construction and none of the
dynamic-inference, deduplication or finalize passes touches it. -/
theorem C10_private_flag_false (pam : ProtocolMapping) (known : KnownDyn)
    (traces : List TxTrace) (header : Header) (prices : Nat) (tree : TimeTree)
    (h : build_tree pam known traces header prices = .ok tree) :
    tree.allPrivFalse = true := by
  simp only [build_tree] at h
  cases hbr : buildRoots pam header traces with
  | panic => rw [hbr] at h; simp at h
  | ok roots =>
    rw [hbr] at h
    simp only [RustRes.bind_ok, try_classify_unknown_exchanges] at h
    cases hdc : dynClassifyRoots (dynSel pam known) (dynTransform known) roots with
    | panic => rw [hdc] at h; simp at h
    | ok pr =>
      rw [hdc] at h
      simp only [RustRes.bind_ok] at h
      have htree : tree =
          (TimeTree.finalizeTree
            (TimeTree.removeDuplicateData (fun node => node.data.isMint)
              mintDedupClassify (fun node => (node.index, node.data))
              (TimeTree.removeDuplicateData (fun node => node.data.isSwap)
                swapDedupClassify (fun node => (node.index, node.data))
                { roots := pr.1, header := header, ethPrices := prices,
                  avgPriorityFee := 0 }))) := by
        cases h; rfl
      have hpr : ∀ r ∈ pr.1, r.priv = false :=
        dynClassifyRoots_priv _ _ roots pr hdc (buildRoots_priv pam header traces roots hbr)
      rw [htree]
      simp only [TimeTree.allPrivFalse, TimeTree.finalizeTree,
        TimeTree.removeDuplicateData, List.all_eq_true, List.mem_map]
      rintro b ⟨r1, ⟨r2, ⟨r3, hr3, rfl⟩, rfl⟩, rfl⟩
      simp only [removeDuplicateData_priv]
      have := hpr r3 hr3
      simp [removeDuplicateData_priv, this]

/-- Concrete witness input for the C10 theorem. -/
theorem C10_private_flag_false_witness :
    build_tree pamEmpty knownEmpty [] hdrWithFee 0
      = .ok { roots := [], header := hdrWithFee, ethPrices := 0, avgPriorityFee := 0 }
    ∧ TimeTree.allPrivFalse
        { roots := [], header := hdrWithFee, ethPrices := 0, avgPriorityFee := 0 } = true :=
  ⟨rfl, C10_private_flag_false pamEmpty knownEmpty [] hdrWithFee 0
    { roots := [], header := hdrWithFee, ethPrices := 0, avgPriorityFee := 0 } rfl⟩

end Brontes
